import Mathlib

/-!
Verification of the dysk disk-usage reporter (Lustre-Dysk repository):
a shallow embedding of its column/sort/filter engine together with
theorems about the sorting directive, the Lustre overlay, the pipeline
functions and the mount accessors.

Sources embedded from the repository:
  * `src/cli/src/sorting.rs` — `Sorting`, `Sorting::sort`,
    `Sorting::sort_with_lustre`, `FromStr for Sorting`;
  * `src/cli/src/lib.rs` — the `run` pipeline from the overlay-collection
    step onward;
  * `src/src/lib.rs` — `MountLike`/`MountExt` accessors, `get_mounts`,
    `get_filtered_mounts`.

Modules referenced by that code but missing from the repository snapshot
(`col.rs`, `order.rs`, `lustre.rs`, `filter.rs`, `normal.rs`) are modelled
from the natural-language specification; each such definition carries a
doc comment starting with "Modelled from the spec".

Machine reals (`f64` shares) are modelled as exact rationals; Rust's
stable `slice::sort_by` is modelled as the stable insertion sort, which
produces the same sequence as any stable sort with the same comparator.
-/

namespace Dysk

/-- Modelled from the spec: `order.rs` is not under src.  The sort order of a
directive, `Asc` or `Desc`. -/
inductive Order where
  | Asc
  | Desc
deriving DecidableEq, Fintype

/-- Modelled from the spec: `col.rs` is not under src.  The closed enumeration
of reportable columns; the base variants are those listed in the column match
of `src/src/table.rs`, the three Lustre variants are those matched in
`src/cli/src/sorting.rs`.  Rust's `Col::Type` is spelled `Typ` because `Type`
is reserved in Lean. -/
inductive Col where
  | Id
  | Dev
  | Filesystem
  | Label
  | Disk
  | Typ
  | Remote
  | Used
  | Use
  | UsePercent
  | Free
  | FreePercent
  | Size
  | InodesFree
  | InodesUsed
  | InodesUse
  | InodesUsePercent
  | InodesCount
  | MountPoint
  | Uuid
  | PartUuid
  | LustreUuid
  | LustreComponent
  | LustreIndex
deriving DecidableEq, Fintype

/-- Device identity of a mount (external `lfs_core::DeviceId`): major and
minor numbers. -/
structure DeviceId where
  major : Nat
  minor : Nat
deriving DecidableEq, BEq

/-- Mount information (external `lfs_core::MountInfo`): the fields the
embedded code reads. -/
structure MountInfo where
  id : Nat
  dev : DeviceId
  fs : String
  fs_type : String
  mount_point : String
  remote : Bool
deriving DecidableEq

/-- Inode statistics (external `lfs_core::Inodes`). -/
structure Inodes where
  files : Nat
  favail : Nat
deriving DecidableEq

/-- Used inode count, as in `lfs_core`: total files minus free. -/
def Inodes.used (i : Inodes) : Nat := i.files - i.favail

/-- Capacity statistics (external `lfs_core::Stats`); the `f64` usage share
is modelled as an exact rational. -/
structure Stats where
  size : Nat
  used : Nat
  available : Nat
  use_share : ℚ
  inodes : Option Inodes
deriving DecidableEq

/-- Mount record (external `lfs_core::Mount`): the fields the embedded code
reads.  `stats` is `none` exactly when the mount has no capacity
statistics. -/
structure Mount where
  info : MountInfo
  fs_label : Option String
  uuid : Option String
  part_uuid : Option String
  disk : Option String
  stats : Option Stats
deriving DecidableEq

/-- Modelled from the spec: `lustre.rs` is not under src.  The component role
of a Lustre mount, as matched in `sort_with_lustre`. -/
inductive LustreComponentType where
  | MDT
  | OST
  | Client
  | Unknown
deriving DecidableEq

/-- Modelled from the spec: `lustre.rs` is not under src.  Per-mount overlay
metadata; the fields are those read by `sort_with_lustre`. -/
structure LustreInfo where
  uuid : String
  component_type : LustreComponentType
  component_index : Option Nat
deriving DecidableEq

/-- Modelled from the spec: `lustre.rs` is not under src.  The overlay data
source: an availability flag and a lookup table keyed by mount identity
(the mount point). -/
structure LustreData where
  is_available : Bool
  table : List (String × LustreInfo)
deriving DecidableEq

/-- Modelled from the spec: `LustreData::new()` before any collection —
the overlay is unavailable and the table empty. -/
def LustreData.new : LustreData := { is_available := false, table := [] }

/-- Modelled from the spec: overlay lookup `lookup(mount_identity) ->
Option<OverlayRecord>`, keyed by mount point. -/
def Mount.lustre_info (m : Mount) (d : LustreData) : Option LustreInfo :=
  (d.table.find? (fun p => p.1 == m.info.mount_point)).map Prod.snd

/-- Modelled from the spec: a mount is a Lustre mount when the overlay has
data for it. -/
def Mount.is_lustre (m : Mount) (d : LustreData) : Bool :=
  (m.lustre_info d).isSome

/-- Modelled from the spec: total order across optional values, absent
values sorted last by convention. -/
def cmpNoneLast {α : Type} (cmp : α → α → Ordering) :
    Option α → Option α → Ordering
  | some a, some b => cmp a b
  | some _, none => Ordering.lt
  | none, some _ => Ordering.gt
  | none, none => Ordering.eq

/-- Numeric rank of a component type: the match in `sort_with_lustre` mapping
MDT, OST, Client, Unknown to 0, 1, 2, 3. -/
def componentTypeOrder : LustreComponentType → Nat
  | LustreComponentType.MDT => 0
  | LustreComponentType.OST => 1
  | LustreComponentType.Client => 2
  | LustreComponentType.Unknown => 3

/-- Modelled from the spec: the stable column identifier used in CLI text
(column names contain no whitespace and no dash, the documented
constraint). -/
def Col.name : Col → String
  | Col.Id => "id"
  | Col.Dev => "dev"
  | Col.Filesystem => "fs"
  | Col.Label => "label"
  | Col.Disk => "disk"
  | Col.Typ => "type"
  | Col.Remote => "remote"
  | Col.Used => "used"
  | Col.Use => "use"
  | Col.UsePercent => "use_percent"
  | Col.Free => "free"
  | Col.FreePercent => "free_percent"
  | Col.Size => "size"
  | Col.InodesFree => "inodes_free"
  | Col.InodesUsed => "inodes_used"
  | Col.InodesUse => "inodes"
  | Col.InodesUsePercent => "inodes_percent"
  | Col.InodesCount => "inodes_count"
  | Col.MountPoint => "mount"
  | Col.Uuid => "uuid"
  | Col.PartUuid => "part_uuid"
  | Col.LustreUuid => "lustre_uuid"
  | Col.LustreComponent => "lustre_component"
  | Col.LustreIndex => "lustre_index"

/-- Ordered sequence of every column, as `all_columns()` in the spec. -/
def Col.all : List Col :=
  [Col.Id, Col.Dev, Col.Filesystem, Col.Label, Col.Disk, Col.Typ, Col.Remote,
   Col.Used, Col.Use, Col.UsePercent, Col.Free, Col.FreePercent, Col.Size,
   Col.InodesFree, Col.InodesUsed, Col.InodesUse, Col.InodesUsePercent,
   Col.InodesCount, Col.MountPoint, Col.Uuid, Col.PartUuid,
   Col.LustreUuid, Col.LustreComponent, Col.LustreIndex]

/-- The guard of `sort_with_lustre`: the Rust
`matches!(self.col, Col::LustreUuid | Col::LustreComponent | Col::LustreIndex)`. -/
def Col.isLustreCol : Col → Bool
  | Col.LustreUuid => true
  | Col.LustreComponent => true
  | Col.LustreIndex => true
  | _ => false

/-- Modelled from the spec: `Column::default_sort_order` — every column
carries a default order used when the directive omits one. -/
def Col.default_sort_order : Col → Order
  | Col.Size => Order.Desc
  | Col.Used => Order.Desc
  | Col.Use => Order.Desc
  | Col.UsePercent => Order.Desc
  | Col.InodesUsed => Order.Desc
  | Col.InodesUse => Order.Desc
  | Col.InodesUsePercent => Order.Desc
  | Col.InodesCount => Order.Desc
  | _ => Order.Asc

/-- Modelled from the spec: `Column::compare` — compare the extracted
attribute of the two records, absent attributes sorted last.  The three
Lustre columns compare equal here: under the base path the overlay is
unavailable and every record ties. -/
def Col.comparator : Col → Mount → Mount → Ordering
  | Col.Id => fun a b => compare a.info.id b.info.id
  | Col.Dev => fun a b =>
      (compare a.info.dev.major b.info.dev.major).then
        (compare a.info.dev.minor b.info.dev.minor)
  | Col.Filesystem => fun a b => compare a.info.fs b.info.fs
  | Col.Label => fun a b => cmpNoneLast compare a.fs_label b.fs_label
  | Col.Disk => fun a b => cmpNoneLast compare a.disk b.disk
  | Col.Typ => fun a b => compare a.info.fs_type b.info.fs_type
  | Col.Remote => fun a b =>
      compare (if a.info.remote then 1 else 0 : Nat)
        (if b.info.remote then 1 else 0 : Nat)
  | Col.Used => fun a b =>
      cmpNoneLast compare (a.stats.map Stats.used) (b.stats.map Stats.used)
  | Col.Use => fun a b =>
      cmpNoneLast compare (a.stats.map Stats.use_share)
        (b.stats.map Stats.use_share)
  | Col.UsePercent => fun a b =>
      cmpNoneLast compare (a.stats.map Stats.use_share)
        (b.stats.map Stats.use_share)
  | Col.Free => fun a b =>
      cmpNoneLast compare (a.stats.map Stats.available)
        (b.stats.map Stats.available)
  | Col.FreePercent => fun a b =>
      cmpNoneLast compare (a.stats.map fun s => 1 - s.use_share)
        (b.stats.map fun s => 1 - s.use_share)
  | Col.Size => fun a b =>
      cmpNoneLast compare (a.stats.map Stats.size) (b.stats.map Stats.size)
  | Col.InodesFree => fun a b =>
      cmpNoneLast compare ((a.stats.bind Stats.inodes).map Inodes.favail)
        ((b.stats.bind Stats.inodes).map Inodes.favail)
  | Col.InodesUsed => fun a b =>
      cmpNoneLast compare ((a.stats.bind Stats.inodes).map Inodes.used)
        ((b.stats.bind Stats.inodes).map Inodes.used)
  | Col.InodesUse => fun a b =>
      cmpNoneLast (fun x y => compare (x.used * y.files) (y.used * x.files))
        (a.stats.bind Stats.inodes) (b.stats.bind Stats.inodes)
  | Col.InodesUsePercent => fun a b =>
      cmpNoneLast (fun x y => compare (x.used * y.files) (y.used * x.files))
        (a.stats.bind Stats.inodes) (b.stats.bind Stats.inodes)
  | Col.InodesCount => fun a b =>
      cmpNoneLast compare ((a.stats.bind Stats.inodes).map Inodes.files)
        ((b.stats.bind Stats.inodes).map Inodes.files)
  | Col.MountPoint => fun a b => compare a.info.mount_point b.info.mount_point
  | Col.Uuid => fun a b => cmpNoneLast compare a.uuid b.uuid
  | Col.PartUuid => fun a b => cmpNoneLast compare a.part_uuid b.part_uuid
  | Col.LustreUuid => fun _ _ => Ordering.eq
  | Col.LustreComponent => fun _ _ => Ordering.eq
  | Col.LustreIndex => fun _ _ => Ordering.eq

/-- Non-strict order induced by a comparator: the pair is in order unless the
comparator says greater.  Rust's `sort_by` sorts into exactly this order. -/
def leOf (cmp : Mount → Mount → Ordering) (a b : Mount) : Prop :=
  cmp a b ≠ Ordering.gt

instance decLeOf (cmp : Mount → Mount → Ordering) : DecidableRel (leOf cmp) :=
  fun a b => inferInstanceAs (Decidable (cmp a b ≠ Ordering.gt))

/-- Rust's stable `slice::sort_by` with the given comparator, modelled as the
stable insertion sort on lists. -/
def sortBy (cmp : Mount → Mount → Ordering) (l : List Mount) : List Mount :=
  List.insertionSort (leOf cmp) l

/-- Sorting directive of `src/cli/src/sorting.rs`: the column and the order. -/
structure Sorting where
  col : Col
  order : Order
deriving DecidableEq, Fintype

/-- The trailing conditional reversal shared by both sort entry points:
reverse the sequence exactly when the order is `Desc`. -/
def revIfDesc (o : Order) (l : List Mount) : List Mount :=
  if o = Order.Desc then l.reverse else l

/-- Embeds `Sorting::sort`: stable sort by the column comparator, then
reverse when the order is `Desc`. -/
def Sorting.sort (s : Sorting) (mounts : List Mount) : List Mount :=
  revIfDesc s.order (sortBy s.col.comparator mounts)

/-- The per-column Lustre comparator used inside `sort_with_lustre`: each
column consults the overlay lookup of both records; a record without overlay
data compares greater than one with data, two without compare equal.  The
final wildcard arm is the source's `unreachable!()`, never taken because
`sort_with_lustre` only calls this comparator for the three Lustre
columns. -/
def lustreCompare (col : Col) (d : LustreData) (a b : Mount) : Ordering :=
  match col with
  | Col.LustreUuid =>
      match a.lustre_info d, b.lustre_info d with
      | some ai, some bi => compare ai.uuid bi.uuid
      | some _, none => Ordering.lt
      | none, some _ => Ordering.gt
      | none, none => Ordering.eq
  | Col.LustreComponent =>
      match a.lustre_info d, b.lustre_info d with
      | some ai, some bi =>
          compare (componentTypeOrder ai.component_type)
            (componentTypeOrder bi.component_type)
      | some _, none => Ordering.lt
      | none, some _ => Ordering.gt
      | none, none => Ordering.eq
  | Col.LustreIndex =>
      match a.lustre_info d, b.lustre_info d with
      | some ai, some bi =>
          match ai.component_index, bi.component_index with
          | some ax, some bx => compare ax bx
          | some _, none => Ordering.lt
          | none, some _ => Ordering.gt
          | none, none => Ordering.eq
      | some _, none => Ordering.lt
      | none, some _ => Ordering.gt
      | none, none => Ordering.eq
  | _ => Ordering.eq

/-- Embeds `Sorting::sort_with_lustre`: for a Lustre column, stable sort with
the overlay comparator; otherwise fall back to `Sorting::sort`; in both
cases reverse at the end when the order is `Desc` (for the fallback branch
this reverses a second time, exactly as the source does). -/
def Sorting.sort_with_lustre (s : Sorting) (mounts : List Mount)
    (d : LustreData) : List Mount :=
  revIfDesc s.order
    (if s.col.isLustreCol then sortBy (lustreCompare s.col d) mounts
     else s.sort mounts)

/-- Lower-cases a string character by character; the case folding behind the
case-insensitive name matching of the spec. -/
def lowerStr (s : String) : String := ⟨s.data.map Char.toLower⟩

/-- Modelled from the spec: `parse_column_name` — case-insensitive exact
match of a column name, unknown names fail. -/
def Col.fromStr (s : String) : Option Col :=
  Col.all.find? (fun c => c.name == lowerStr s)

/-- Modelled from the spec: parsing an order token — `asc` or `desc`,
case-insensitive, unambiguous (here: nonempty prefix) abbreviations
accepted. -/
def Order.fromStr (s : String) : Option Order :=
  let t := (lowerStr s).data
  if t.isEmpty then none
  else if t.isPrefixOf "asc".data then some Order.Asc
  else if t.isPrefixOf "desc".data then some Order.Desc
  else none

/-- The separator predicate of `FromStr for Sorting`: whitespace or a literal
dash. -/
def sepChar (c : Char) : Bool := c.isWhitespace || c == '-'

/-- Embeds `FromStr for Sorting` (`Sorting::from_str`): find the first
separator character; the prefix before it must parse as a column and the
suffix after it as an order; without a separator the whole string is the
column name and the order is the column's default.  The source works on
byte indices and skips `len_utf8` bytes of the separator; this model works
on the character sequence and skips the one separator character, which
splits the text identically.  The error payload of the source's
`ParseSortingError` is not modelled: every failure is `none`. -/
def Sorting.from_str (s : String) : Option Sorting :=
  match s.data.findIdx? sepChar with
  | some idx =>
      match Col.fromStr ⟨s.data.take idx⟩ with
      | none => none
      | some col =>
          match Order.fromStr ⟨s.data.drop (idx + 1)⟩ with
          | some o => some ⟨col, o⟩
          | none => none
  | none =>
      match Col.fromStr s with
      | none => none
      | some col => some ⟨col, col.default_sort_order⟩

/-- Modelled from the spec: the textual form of a sorting directive, a
column name, a dash separator and the explicit order word. -/
def Sorting.format (s : Sorting) : String :=
  s.col.name ++ "-" ++ (match s.order with
    | Order.Asc => "asc"
    | Order.Desc => "desc")

/-- Embeds `MountLike::filesystem_name` for `lfs_core::Mount`
(`src/src/lib.rs`): the fs field, or the major:minor rendering of the
device when the fs field is empty. -/
def MountLike.filesystem_name (m : Mount) : String :=
  if m.info.fs = "" then
    toString m.info.dev.major ++ ":" ++ toString m.info.dev.minor
  else m.info.fs

/-- Embeds `MountExt::display_name` for `lfs_core::Mount`
(`src/src/lib.rs`). -/
def MountExt.display_name (m : Mount) : String :=
  if m.info.fs = "" then
    toString m.info.dev.major ++ ":" ++ toString m.info.dev.minor
  else m.info.fs

/-- Embeds `MountLike::usage_percentage` (`src/src/lib.rs`): the usage share
scaled by 100, absent without capacity statistics. -/
def MountLike.usage_percentage (m : Mount) : Option ℚ :=
  m.stats.map (fun s => s.use_share * 100)

/-- Embeds `MountExt::usage_percentage` (`src/src/lib.rs`): the raw usage
share in the unit interval, absent without capacity statistics. -/
def MountExt.usage_percentage (m : Mount) : Option ℚ :=
  m.stats.map (fun s => s.use_share)

/-- Modelled from the spec: `filter.rs` is not under src.  A built filter
expression, reduced to its per-record evaluation, which may fail (the
per-record evaluation error reported by `run`). -/
structure Filter where
  eval : Mount → Except String Bool

/-- Modelled from the spec: the default filter is the identity predicate
that keeps every record. -/
def Filter.default : Filter := { eval := fun _ => Except.ok true }

/-- Modelled from the spec: `Filter::filter` keeps exactly the records on
which the expression evaluates to true; an evaluation error aborts the
whole filtering. -/
def Filter.filter (f : Filter) : List Mount → Except String (List Mount)
  | [] => Except.ok []
  | m :: rest =>
      match f.eval m with
      | Except.error e => Except.error e
      | Except.ok keep =>
          match Filter.filter f rest with
          | Except.error e => Except.error e
          | Except.ok tail => Except.ok (if keep then m :: tail else tail)

/-- The warning `run` prints when overlay collection fails. -/
def warnCollect (e : String) : String :=
  "Warning: Failed to collect Lustre information: " ++ e

/-- Embeds `run` of `src/cli/src/lib.rs` from the overlay-collection step
onward (mount reading and the all/path retains happen before and enter as
the input sequence).  `lustre_flag` stands for the flag disjunction guarding
collection; `collectRes` is the outcome of `collect_lustre_info`, which on
failure leaves the overlay unavailable (modelled from the spec, `lustre.rs`
is not under src) and only adds a warning.  The result is the list of
diagnostics printed and, unless filter evaluation aborted the run, the
record sequence handed to the renderer. -/
def run (sort : Sorting) (filterArg : Option Filter)
    (lustre_flag lustre_only : Bool) (collectRes : Except String LustreData)
    (mounts0 : List Mount) : List String × Option (List Mount) :=
  let collected :=
    if lustre_flag then
      match collectRes with
      | Except.ok d => (d, ([] : List String))
      | Except.error e => (LustreData.new, [warnCollect e])
    else (LustreData.new, [])
  let lustre_data := collected.1
  let warns := collected.2
  let mounts1 :=
    if lustre_only then mounts0.filter (fun m => m.is_lustre lustre_data)
    else mounts0
  let sorted :=
    if lustre_data.is_available then sort.sort_with_lustre mounts1 lustre_data
    else sort.sort mounts1
  match (filterArg.getD Filter.default).filter sorted with
  | Except.ok ms => (warns, some ms)
  | Except.error e => (warns ++ ["Error in filter evaluation: " ++ e], none)

/-- Modelled from the spec: `normal.rs` is not under src.  The visibility
predicate used when the all flag is off; its exact condition does not matter
to any theorem below. -/
def is_normal (m : Mount) : Bool := m.info.fs != ""

/-- The argument fields of `Args` read by the embedded library pipeline of
`src/src/lib.rs`. -/
structure Args where
  all : Bool
  path : Option String
  sort : Sorting
  filter : Option Filter

/-- The external collaborators of the library pipeline: the mount reader
and the path metadata lookup, both fallible. -/
structure Env where
  read_mounts : Except String (List Mount)
  metadata : String → Except String DeviceId

/-- Embeds `get_mounts` (`src/src/lib.rs`): read the mounts, retain normal
ones unless the all flag is set, retain the device of the given path when
one is given, then sort; a failing step aborts with its error. -/
def get_mounts (args : Args) (env : Env) : Except String (List Mount) :=
  match env.read_mounts with
  | Except.error e => Except.error e
  | Except.ok mounts =>
      let mounts := if args.all then mounts else mounts.filter is_normal
      match args.path with
      | some p =>
          match env.metadata p with
          | Except.error e => Except.error e
          | Except.ok dev =>
              Except.ok (args.sort.sort
                (mounts.filter (fun m => m.info.dev == dev)))
      | none => Except.ok (args.sort.sort mounts)

/-- Embeds `get_filtered_mounts` (`src/src/lib.rs`): the mounts of
`get_mounts`, passed through the filter when one is configured. -/
def get_filtered_mounts (args : Args) (env : Env) :
    Except String (List Mount) :=
  match get_mounts args env with
  | Except.error e => Except.error e
  | Except.ok mounts =>
      match args.filter with
      | some f => f.filter mounts
      | none => Except.ok mounts

/-! Sample records used by concrete evaluations. -/

/-- Builds mount information with a device derived from the id. -/
def mkInfo (id : Nat) (fs fsty mp : String) : MountInfo :=
  { id := id, dev := { major := id, minor := 0 }, fs := fs, fs_type := fsty,
    mount_point := mp, remote := false }

/-- A mount of total size 100. -/
def m1 : Mount :=
  { info := mkInfo 1 "sda1" "ext4" "/", fs_label := none, uuid := none,
    part_uuid := none, disk := none,
    stats := some { size := 100, used := 40, available := 60,
                    use_share := 0, inodes := none } }

/-- A mount of total size 200. -/
def m2 : Mount :=
  { info := mkInfo 2 "sdb1" "ext4" "/data", fs_label := none, uuid := none,
    part_uuid := none, disk := none,
    stats := some { size := 200, used := 50, available := 150,
                    use_share := 0, inodes := none } }

/-- An available overlay with no per-mount data. -/
def dAvail : LustreData := { is_available := true, table := [] }

/-- An available overlay holding data for the mount point of `mLus` only. -/
def dLus : LustreData :=
  { is_available := true,
    table := [("/lus", { uuid := "uuid0",
                         component_type := LustreComponentType.OST,
                         component_index := some 1 })] }

/-- A mount the overlay of `dLus` has data for. -/
def mLus : Mount :=
  { info := mkInfo 3 "lustre0" "lustre" "/lus", fs_label := none,
    uuid := none, part_uuid := none, disk := none, stats := none }

/-- A mount the overlay of `dLus` has no data for. -/
def mPlain : Mount :=
  { info := mkInfo 4 "sdc1" "xfs" "/plain", fs_label := none, uuid := none,
    part_uuid := none, disk := none, stats := none }

/-- C1: with the overlay active and a base (non-Lustre) sort column,
`sort_with_lustre` was claimed to order exactly as `sort`.  The code
applies the `Desc` reversal twice on this path: `sort` puts the larger
mount first, `sort_with_lustre` hands back the ascending sequence, and the
two results differ. -/
theorem sort_with_lustre_desc_double_reversal :
    Sorting.sort ⟨Col.Size, Order.Desc⟩ [m1, m2] = [m2, m1] ∧
    Sorting.sort_with_lustre ⟨Col.Size, Order.Desc⟩ [m1, m2] dAvail
      = [m1, m2] ∧
    m1 ≠ m2 := by
  refine ⟨rfl, rfl, ?_⟩
  intro h
  exact absurd (congrArg (fun m => m.info.id) h) (by decide)

/-- C2: for every column, sorting with order `Desc` is exactly the reverse
of the ascending stable sort of the same sequence by that column's
comparator. -/
theorem sort_desc_eq_reverse_sort_asc (col : Col) (l : List Mount) :
    Sorting.sort ⟨col, Order.Desc⟩ l
      = (Sorting.sort ⟨col, Order.Asc⟩ l).reverse := rfl

/-- Stable sorting by any comparator permutes the input. -/
lemma sortBy_perm (cmp : Mount → Mount → Ordering) (l : List Mount) :
    (sortBy cmp l).Perm l :=
  List.perm_insertionSort _ _

/-- The conditional reversal permutes the input. -/
lemma revIfDesc_perm (o : Order) (l : List Mount) :
    (revIfDesc o l).Perm l := by
  unfold revIfDesc
  split
  · exact List.reverse_perm l
  · exact List.Perm.refl l

/-- C7: for every directive, sequence and overlay, both `Sorting::sort` and
`Sorting::sort_with_lustre` return a permutation of their input: no record
is skipped, duplicated or added (and, being total functions, they cannot
panic). -/
theorem sort_and_sort_with_lustre_perm (s : Sorting) (l : List Mount)
    (d : LustreData) :
    (Sorting.sort s l).Perm l ∧ (Sorting.sort_with_lustre s l d).Perm l := by
  have h1 : (Sorting.sort s l).Perm l :=
    (revIfDesc_perm _ _).trans (sortBy_perm _ _)
  refine ⟨h1, ?_⟩
  unfold Sorting.sort_with_lustre
  refine (revIfDesc_perm _ _).trans ?_
  split
  · exact sortBy_perm _ _
  · exact h1

/-- C9: `MountLike::filesystem_name` and `MountExt::display_name` agree on
every mount, return the major:minor rendering exactly when the fs field is
empty and the fs field itself otherwise, and never return the empty
string. -/
theorem filesystem_name_eq_display_name (m : Mount) :
    MountLike.filesystem_name m = MountExt.display_name m ∧
    MountLike.filesystem_name m =
      (if m.info.fs = "" then
        toString m.info.dev.major ++ ":" ++ toString m.info.dev.minor
      else m.info.fs) ∧
    MountLike.filesystem_name m ≠ "" := by
  refine ⟨rfl, rfl, ?_⟩
  by_cases h : m.info.fs = ""
  · simp only [MountLike.filesystem_name, if_pos h]
    intro hc
    have h2 := congrArg String.length hc
    rw [String.length_append, String.length_append] at h2
    have h3 : (":" : String).length = 1 := rfl
    have h4 : ("" : String).length = 0 := rfl
    omega
  · simp only [MountLike.filesystem_name, if_neg h]
    exact h

/-- C10: on every mount, the `MountLike` percentage is one hundred times
the `MountExt` share, and each is absent exactly when the mount has no
capacity statistics. -/
theorem usage_percentage_hundred_times (m : Mount) :
    MountLike.usage_percentage m
      = (MountExt.usage_percentage m).map (fun x => 100 * x) ∧
    (MountLike.usage_percentage m = none ↔ m.stats = none) ∧
    (MountExt.usage_percentage m = none ↔ m.stats = none) := by
  cases h : m.stats <;>
    simp [MountLike.usage_percentage, MountExt.usage_percentage, h, mul_comm]

/-- C6: with no filter configured, `get_filtered_mounts` returns exactly
the sequence of `get_mounts`, content and order unchanged. -/
theorem get_filtered_mounts_no_filter_identity (args : Args) (env : Env)
    (h : args.filter = none) :
    get_filtered_mounts args env = get_mounts args env := by
  cases hg : get_mounts args env <;>
    simp [get_filtered_mounts, hg, h]

/-- Arguments used to witness the identity law: all mounts, no path, no
filter. -/
def argsW : Args :=
  { all := true, path := none, sort := ⟨Col.Size, Order.Asc⟩,
    filter := none }

/-- An environment that reads one mount and resolves no path. -/
def envW : Env :=
  { read_mounts := Except.ok [m1],
    metadata := fun _ => Except.error "no metadata" }

/-- Witness for C6 at a concrete argument set and environment. -/
theorem get_filtered_mounts_no_filter_identity_witness :
    get_filtered_mounts argsW envW = get_mounts argsW envW :=
  get_filtered_mounts_no_filter_identity argsW envW rfl

/-- C5: when overlay collection fails, `run` only records the warning,
takes the base sort path (the failed overlay is unavailable), and still
filters and hands the records to the renderer: the run is never
aborted by a collection failure. -/
theorem run_collect_failure_degrades (sort : Sorting)
    (filterArg : Option Filter) (lustre_only : Bool) (e : String)
    (mounts0 ms : List Mount)
    (h : (filterArg.getD Filter.default).filter
        (sort.sort (if lustre_only then
            mounts0.filter (fun m => m.is_lustre LustreData.new)
          else mounts0)) = Except.ok ms) :
    run sort filterArg true lustre_only (Except.error e) mounts0 =
      ([warnCollect e], some ms) := by
  have havail : LustreData.new.is_available = false := rfl
  simp [run, h, havail]

/-- A filter that keeps every record without failing. -/
def filterW : Filter := { eval := fun _ => Except.ok true }

/-- Witness for C5: a failed collection at a concrete directive, filter and
sequence still produces the warning plus the rendered records. -/
theorem run_collect_failure_degrades_witness :
    run ⟨Col.Size, Order.Asc⟩ (some filterW) true false
        (Except.error "boom") [m1]
      = ([warnCollect "boom"], some [m1]) :=
  run_collect_failure_degrades ⟨Col.Size, Order.Asc⟩ (some filterW) false
    "boom" [m1] [m1] rfl

/-- With a Lustre column, a record without overlay data compares greater
than one with overlay data (it sorts after it). -/
lemma lustreCompare_none_some (col : Col) (hc : col.isLustreCol = true)
    (d : LustreData) (a b : Mount) (ha : a.lustre_info d = none)
    (hb : (b.lustre_info d).isSome = true) :
    lustreCompare col d a b = Ordering.gt := by
  rcases hbs : b.lustre_info d with _ | bi
  · rw [hbs] at hb
    simp at hb
  · cases col <;> simp_all [lustreCompare, Col.isLustreCol]

/-- With a Lustre column, a record with overlay data compares less than one
without (it sorts before it). -/
lemma lustreCompare_some_none (col : Col) (hc : col.isLustreCol = true)
    (d : LustreData) (a b : Mount) (ha : (a.lustre_info d).isSome = true)
    (hb : b.lustre_info d = none) :
    lustreCompare col d a b = Ordering.lt := by
  rcases has : a.lustre_info d with _ | ai
  · rw [has] at ha
    simp at ha
  · cases col <;> simp_all [lustreCompare, Col.isLustreCol]

/-- With a Lustre column, two records both without overlay data compare
equal: no further tie-break. -/
lemma lustreCompare_none_none (col : Col) (hc : col.isLustreCol = true)
    (d : LustreData) (a b : Mount) (ha : a.lustre_info d = none)
    (hb : b.lustre_info d = none) :
    lustreCompare col d a b = Ordering.eq := by
  cases col <;> simp_all [lustreCompare, Col.isLustreCol]

/-- Inserting into a list in which no record marked false precedes one
marked true preserves that shape, provided the comparator sends
false-marked records after true-marked ones. -/
lemma pairwise_sep_orderedInsert (cmp : Mount → Mount → Ordering)
    (p : Mount → Bool)
    (hgt : ∀ a b, p a = false → p b = true → cmp a b = Ordering.gt)
    (hng : ∀ a b, p a = true → p b = false → cmp a b ≠ Ordering.gt)
    (a : Mount) (l : List Mount)
    (hl : l.Pairwise (fun x y => ¬(p x = false ∧ p y = true))) :
    (List.orderedInsert (leOf cmp) a l).Pairwise
      (fun x y => ¬(p x = false ∧ p y = true)) := by
  induction l with
  | nil => simp [List.orderedInsert]
  | cons b l ih =>
      simp only [List.orderedInsert]
      split
      case isTrue hab =>
        rw [List.pairwise_cons]
        refine ⟨?_, hl⟩
        intro x hx
        rintro ⟨hpa, hpx⟩
        rcases List.mem_cons.mp hx with hxb | hxl
        · subst hxb
          exact hab (hgt a x hpa hpx)
        · cases hpb : p b
          · exact (List.pairwise_cons.mp hl).1 x hxl ⟨hpb, hpx⟩
          · exact hab (hgt a b hpa hpb)
      case isFalse hab =>
        rw [List.pairwise_cons]
        refine ⟨?_, ih (List.Pairwise.of_cons hl)⟩
        intro x hx
        rintro ⟨hpb, hpx⟩
        rcases (List.mem_orderedInsert (leOf cmp)).mp hx with hxa | hxl
        · subst hxa
          exact hab (hng x b hpx hpb)
        · exact (List.pairwise_cons.mp hl).1 x hxl ⟨hpb, hpx⟩

/-- The stable sort with such a comparator leaves no false-marked record
ahead of a true-marked one. -/
lemma pairwise_sep_insertionSort (cmp : Mount → Mount → Ordering)
    (p : Mount → Bool)
    (hgt : ∀ a b, p a = false → p b = true → cmp a b = Ordering.gt)
    (hng : ∀ a b, p a = true → p b = false → cmp a b ≠ Ordering.gt)
    (l : List Mount) :
    (List.insertionSort (leOf cmp) l).Pairwise
      (fun x y => ¬(p x = false ∧ p y = true)) := by
  induction l with
  | nil => simp
  | cons a l ih =>
      simp only [List.insertionSort]
      exact pairwise_sep_orderedInsert cmp p hgt hng a _ ih

/-- C4 (amended): sorting with `sort_with_lustre` by an overlay column, two
records both lacking overlay data compare equal with no further tie-break;
with order `Asc` no record lacking overlay data precedes one having it (the
lacking ones are placed after); the trailing `Desc` reversal turns that
around, so with order `Desc` no record having data precedes one lacking it
(the lacking ones are placed before, contrary to the original claim's
"for every order"). -/
theorem sort_with_lustre_missing_overlay_placement (col : Col)
    (d : LustreData) (l : List Mount) (a b : Mount)
    (hc : col.isLustreCol = true)
    (ha : a.lustre_info d = none) (hb : b.lustre_info d = none) :
    lustreCompare col d a b = Ordering.eq ∧
    (Sorting.sort_with_lustre ⟨col, Order.Asc⟩ l d).Pairwise
      (fun x y =>
        ¬(x.lustre_info d = none ∧ (y.lustre_info d).isSome = true)) ∧
    (Sorting.sort_with_lustre ⟨col, Order.Desc⟩ l d).Pairwise
      (fun x y =>
        ¬((x.lustre_info d).isSome = true ∧ y.lustre_info d = none)) := by
  have hgt : ∀ x y : Mount, (x.lustre_info d).isSome = false →
      (y.lustre_info d).isSome = true →
      lustreCompare col d x y = Ordering.gt := by
    intro x y hx hy
    rcases hxo : x.lustre_info d with _ | v
    · exact lustreCompare_none_some col hc d x y hxo hy
    · rw [hxo] at hx
      simp at hx
  have hng : ∀ x y : Mount, (x.lustre_info d).isSome = true →
      (y.lustre_info d).isSome = false →
      lustreCompare col d x y ≠ Ordering.gt := by
    intro x y hx hy
    rcases hyo : y.lustre_info d with _ | v
    · rw [lustreCompare_some_none col hc d x y hx hyo]
      simp
    · rw [hyo] at hy
      simp at hy
  have key := pairwise_sep_insertionSort (lustreCompare col d)
    (fun m => (m.lustre_info d).isSome) hgt hng l
  have hasc : Sorting.sort_with_lustre ⟨col, Order.Asc⟩ l d
      = sortBy (lustreCompare col d) l := by
    simp [Sorting.sort_with_lustre, revIfDesc, hc]
  have hdesc : Sorting.sort_with_lustre ⟨col, Order.Desc⟩ l d
      = (sortBy (lustreCompare col d) l).reverse := by
    simp [Sorting.sort_with_lustre, revIfDesc, hc]
  refine ⟨lustreCompare_none_none col hc d a b ha hb, ?_, ?_⟩
  · rw [hasc]
    refine List.Pairwise.imp ?_ key
    intro x y hS
    rintro ⟨h1, h2⟩
    exact hS ⟨by rw [h1]; rfl, h2⟩
  · rw [hdesc, List.pairwise_reverse]
    refine List.Pairwise.imp ?_ key
    intro x y hS
    rintro ⟨h2, h1⟩
    exact hS ⟨by rw [h1]; rfl, h2⟩

/-- C4 counterexample: under a `Desc` overlay sort, the record without
overlay data comes out first, not after the record with data, refuting the
original claim's "for every order". -/
theorem sort_with_lustre_desc_missing_first :
    Sorting.sort_with_lustre ⟨Col.LustreUuid, Order.Desc⟩ [mLus, mPlain] dLus
      = [mPlain, mLus] ∧
    (mLus.lustre_info dLus).isSome = true ∧
    mPlain.lustre_info dLus = none ∧
    mPlain ≠ mLus := by
  refine ⟨rfl, rfl, rfl, ?_⟩
  intro h
  exact absurd (congrArg (fun m => m.info.id) h) (by decide)

/-- Witness for C4 at a concrete overlay column, overlay table and record
pair. -/
theorem sort_with_lustre_missing_overlay_placement_witness :
    Col.isLustreCol Col.LustreUuid = true ∧
    mPlain.lustre_info dLus = none ∧
    lustreCompare Col.LustreUuid dLus mPlain mPlain = Ordering.eq ∧
    (Sorting.sort_with_lustre ⟨Col.LustreUuid, Order.Asc⟩ [mLus, mPlain]
        dLus).Pairwise
      (fun x y =>
        ¬(x.lustre_info dLus = none ∧ (y.lustre_info dLus).isSome = true)) ∧
    (Sorting.sort_with_lustre ⟨Col.LustreUuid, Order.Desc⟩ [mLus, mPlain]
        dLus).Pairwise
      (fun x y =>
        ¬((x.lustre_info dLus).isSome = true ∧
          y.lustre_info dLus = none)) := by
  have h := sort_with_lustre_missing_overlay_placement Col.LustreUuid dLus
    [mLus, mPlain] mPlain mPlain rfl rfl rfl
  exact ⟨rfl, rfl, h.1, h.2.1, h.2.2⟩

/-- Finding the first index satisfying a predicate in a list whose prefix
avoids the predicate and whose next element satisfies it lands exactly on
that element. -/
lemma findIdx?_append_sep (p : Char → Bool) (c : Char) (hc : p c = true) :
    ∀ (l₁ l₂ : List Char) (i : Nat), (∀ x ∈ l₁, p x = false) →
      List.findIdx? p (l₁ ++ c :: l₂) i = some (i + l₁.length) := by
  intro l₁
  induction l₁ with
  | nil =>
      intro l₂ i _
      simp [List.findIdx?_cons, hc]
  | cons x l ih =>
      intro l₂ i h
      have hx : p x = false := h x (by simp)
      rw [List.cons_append, List.findIdx?_cons, hx]
      have hrec := ih l₂ (i + 1) (fun y hy => h y (by simp [hy]))
      simp only [Bool.false_eq_true, if_false, hrec, List.length_cons]
      congr 1
      omega

/-- C3: `Sorting::from_str` splits its input at the first whitespace or dash
character — the prefix must parse as a column and the suffix as an order,
either sub-parse failing fails the whole parse — and an input without a
separator parses as a bare column name with that column's default order. -/
theorem from_str_splits_at_first_separator :
    (∀ (l₁ l₂ : List Char) (c : Char), sepChar c = true →
      (∀ x ∈ l₁, sepChar x = false) →
      Sorting.from_str ⟨l₁ ++ c :: l₂⟩ =
        (match Col.fromStr ⟨l₁⟩ with
         | none => none
         | some col =>
            match Order.fromStr ⟨l₂⟩ with
            | some o => some ⟨col, o⟩
            | none => none)) ∧
    (∀ l : List Char, (∀ x ∈ l, sepChar x = false) →
      Sorting.from_str ⟨l⟩ =
        (Col.fromStr ⟨l⟩).map (fun col => ⟨col, col.default_sort_order⟩)) := by
  constructor
  · intro l₁ l₂ c hc h
    have hfind : List.findIdx? sepChar (l₁ ++ c :: l₂) = some l₁.length := by
      simpa using findIdx?_append_sep sepChar c hc l₁ l₂ 0 h
    have htake : (l₁ ++ c :: l₂).take l₁.length = l₁ := List.take_left l₁ _
    have hdrop : (l₁ ++ c :: l₂).drop (l₁.length + 1) = l₂ := by
      rw [List.append_cons]
      have hlen : (l₁ ++ [c]).length = l₁.length + 1 := by simp
      rw [← hlen, List.drop_left]
    unfold Sorting.from_str
    rw [show (String.mk (l₁ ++ c :: l₂)).data = l₁ ++ c :: l₂ from rfl, hfind]
    dsimp only
    rw [htake, hdrop]
  · intro l h
    have hfind : List.findIdx? sepChar l = none :=
      List.findIdx?_eq_none_iff.mpr h
    unfold Sorting.from_str
    rw [show (String.mk l).data = l from rfl, hfind]
    cases hcol : Col.fromStr ⟨l⟩ <;> simp [hcol]

/-- Witness for C3: the directive text of column size with an explicit
descending order splits at the dash. -/
theorem from_str_splits_at_first_separator_witness :
    Sorting.from_str ⟨"size".data ++ '-' :: "desc".data⟩ =
      (match Col.fromStr ⟨"size".data⟩ with
       | none => none
       | some col =>
          match Order.fromStr ⟨"desc".data⟩ with
          | some o => some ⟨col, o⟩
          | none => none) :=
  from_str_splits_at_first_separator.1 "size".data "desc".data '-'
    (by decide) (by decide)

/-- C8: formatting a sorting directive and re-parsing the text restores the
directive exactly: same column, same order. -/
theorem format_from_str_roundtrip :
    ∀ d : Sorting, Sorting.from_str (Sorting.format d) = some d := by
  intro d
  rcases d with ⟨col, ord⟩
  cases col <;> cases ord <;> rfl

end Dysk
